import Mathlib

set_option autoImplicit false

/-!
Shallow embedding of the multi-agent chat engine of the repository
(`backend/handlers/multiAgentChat.ts`, `backend/providers/registry.ts`,
`backend/providers/openai.ts`, `backend/providers/claude-code.ts`,
`backend/providers/anthropic.ts`, `backend/history/pathUtils.ts`,
`backend/handlers/agentHistories.ts`).

Conventions of the embedding:
- JS strings are Lean `String`s; the character-level regex scans of the
  source are implemented over `String.data`.
- An async generator is embedded as the finite list of values it yields,
  together with an optional exception thrown after the last yielded value
  (`none` means the generator completed normally).
- A JS `Map` is embedded as an association list with `set` replacing an
  existing key in place and appending otherwise, matching insertion-order
  semantics of `Map`.
- Wall-clock reads (`new Date().toISOString()`, `Date.now()`) are passed
  in as parameters `nowIso` / `nowMs`.
- External effects (screenshot capture, the OpenAI / Anthropic / Claude
  Code upstream streams, the filesystem) are passed in as explicit
  outcome values over which the theorems quantify.
-/

namespace AgentRooms

/-- JS character class `[\w-]`: ASCII word characters and the dash, as
used by the mention regex and the command regex in `multiAgentChat.ts`. -/
def isWordDashChar (c : Char) : Bool :=
  c.isAlpha || c.isDigit || c == '_' || c == '-'

/-- JS `\s` whitespace class (the members representable in this model). -/
def jsWhitespaceChar (c : Char) : Bool :=
  c == ' ' || c == '\t' || c == '\n' || c == '\r' || c == '\x0b' || c == '\x0c'

/-- JS `.` (dot) without the `s` flag: anything but a line terminator. -/
def jsDotChar (c : Char) : Bool :=
  !(c == '\n' || c == '\r')

/-- JS truthiness of an optional string: `undefined` and `""` are falsy. -/
def jsTruthy (o : Option String) : Bool :=
  match o with
  | some s => !(s == "")
  | none => false

/-- JS `a || b` for an optional string `a` and a string default `b`. -/
def jsOrStr (a : Option String) (b : String) : String :=
  match a with
  | some s => if s == "" then b else s
  | none => b

/-- JS `a || b` where both operands are optional strings. -/
def jsOrOpt (a b : Option String) : Option String :=
  match a with
  | some s => if s == "" then b else some s
  | none => b

/-- JS template interpolation of a possibly `undefined` string value. -/
def jsShow (a : Option String) : String :=
  match a with
  | some s => s
  | none => "undefined"

/-- JS `String.prototype.trim`: strip leading and trailing whitespace
(implemented over the character list so that it reduces by `rfl`). -/
def jsTrim (s : String) : String :=
  String.mk
    (((s.data.dropWhile jsWhitespaceChar).reverse.dropWhile
        jsWhitespaceChar).reverse)

/-- JS `s.startsWith(pre)`. -/
def jsStartsWith (s pre : String) : Bool :=
  pre.data.isPrefixOf s.data

/-- JS `s.split(sep)` for a one-character separator. -/
def splitOnCharAux (sep : Char) : List Char → List (List Char)
  | [] => [[]]
  | c :: rest =>
    let r := splitOnCharAux sep rest
    if c == sep then [] :: r
    else
      match r with
      | [] => [[c]]
      | h :: t => (c :: h) :: t

def jsSplitChar (sep : Char) (s : String) : List String :=
  (splitOnCharAux sep s.data).map String.mk

/-- Substring containment test (used to model `String.includes`). -/
def containsSubstr (needle haystack : String) : Bool :=
  (List.range (haystack.data.length + 1)).any fun i =>
    needle.data.isPrefixOf (haystack.data.drop i)

/-- Scan step for the global regex `/@([\w-]+)/g`: at each position, an
`@` followed by a nonempty `[\w-]` run is a match, and the scan resumes
after the run; otherwise the scan advances one character.  Structural
recursion on a fuel bounded by the remaining length (every step consumes
at least one character, so the fuel never runs out) keeps the definition
reducible by `rfl`. -/
def findMentionsFuel : Nat → List Char → List (List Char)
  | 0, _ => []
  | _, [] => []
  | fuel + 1, c :: rest =>
    if c == '@' then
      let run := rest.takeWhile isWordDashChar
      if run.isEmpty then findMentionsFuel fuel rest
      else (c :: run) :: findMentionsFuel fuel (rest.drop run.length)
    else findMentionsFuel fuel rest

/-- All matches of `/@([\w-]+)/g` over the message, as full match texts
including the leading `@`, in scan order; this is the `mentionMatches`
computation of `executeMultiAgentChat`. -/
def findMentions (message : String) : List String :=
  (findMentionsFuel message.data.length message.data).map String.mk

/-- The closed verb set of the structured command regex, in the order the
alternation lists them. -/
def commandVerbs : List String :=
  ["capture_screen", "analyze_image", "implement_changes", "review_code"]

/-- Backtracking match of the optional regex tail `(?:\s+(.+))?`: take
whitespace greedily, then give characters back until `.+` can match at
least one non-line-terminator character; the capture is the maximal run
of non-line-terminator characters at that point.  Returns the raw capture
of group 2, or `none` when the optional group does not participate. -/
def matchTargetAux (l : List Char) : Nat → Option String
  | 0 => none
  | k + 1 =>
    let run := (l.drop (k + 1)).takeWhile jsDotChar
    if run.isEmpty then matchTargetAux l k else some (String.mk run)

def matchTarget (l : List Char) : Option String :=
  matchTargetAux l ((l.takeWhile jsWhitespaceChar).length)

/-- Match of the command regex
`/@[\w-]+ (capture_screen|analyze_image|implement_changes|review_code)(?:\s+(.+))?/`
anchored at the head of `l`: returns the verb and the raw optional target
capture. -/
def matchCommandAt (l : List Char) : Option (String × Option String) :=
  match l with
  | '@' :: rest =>
    let run := rest.takeWhile isWordDashChar
    if run.isEmpty then none
    else
      match rest.drop run.length with
      | ' ' :: afterSpace =>
        match commandVerbs.findSome? (fun v =>
            if v.data.isPrefixOf afterSpace then some v else none) with
        | some v => some (v, matchTarget (afterSpace.drop v.length))
        | none => none
      | _ => none
  | _ => none

/-- Unanchored scan of the command regex: try each start position from
the left, advancing one character on failure, exactly as the regex engine
does for `String.match`. -/
def parseAgentCommandAux : List Char → Option (String × Option String)
  | [] => none
  | c :: rest =>
    match matchCommandAt (c :: rest) with
    | some r => some r
    | none => parseAgentCommandAux rest

/-- `AgentCommand` (providers/types.ts); `parameters` is never written by
the code and is omitted. -/
structure AgentCommand where
  command : String
  target : Option String := none
deriving Repr, DecidableEq

/-- `parseAgentCommand` from `multiAgentChat.ts`. -/
def parseAgentCommand (message : String) : Option AgentCommand :=
  (parseAgentCommandAux message.data).map fun p =>
    { command := p.1, target := p.2.map jsTrim }

/-! ## Data model: provider-level requests and fragments -/

/-- `ProviderImage` (providers/types.ts). -/
structure ProviderImage where
  type : String
  data : String
  mimeType : String
deriving Repr, DecidableEq

/-- `ProviderContext` (providers/types.ts). -/
structure ProviderContext where
  role : String
  content : String
  timestamp : Option String := none
deriving Repr, DecidableEq

/-- `ProviderChatRequest` (providers/types.ts). -/
structure ProviderChatRequest where
  message : String
  sessionId : Option String := none
  requestId : String
  workingDirectory : Option String := none
  images : Option (List ProviderImage) := none
  context : Option (List ProviderContext) := none
deriving Repr, DecidableEq

/-- `ProviderOptions` (providers/types.ts).  The `abortController` object
cannot be embedded by value; the signal state it carries is modelled,
where a claim needs it, by an explicit `aborted` predicate on the
adapters (see `openaiExecuteChat` and `anthropicExecuteChat`). -/
structure ProviderOptions where
  debugMode : Bool := false
  temperature : Option ℚ := none
  maxTokens : Option Nat := none
deriving Repr, DecidableEq

/-- `ProviderResponse` (providers/types.ts): one streamed fragment.  The
optional `metadata` object is flattened into the only two fields the code
ever writes (`metadata.model` and `metadata.captureType`); the declared
`metadata.usage` is never produced nor read.  `toolInput` is an opaque
serialized value. -/
structure ProviderResponse where
  type : String
  content : Option String := none
  imageData : Option String := none
  toolName : Option String := none
  toolInput : Option String := none
  error : Option String := none
  metadataModel : Option String := none
  metadataCaptureType : Option String := none
deriving Repr, DecidableEq

/-- `ChatRoomMessage` (providers/types.ts), with its optional `metadata`
flattened to the only field the code writes (`metadata.command`). -/
structure ChatRoomMessage where
  type : String
  content : String
  imageData : Option String := none
  agentId : String
  timestamp : String
  metadataCommand : Option String := none
deriving Repr, DecidableEq

/-- Payload of a `claude_json` stream envelope: the three data shapes the
handler produces (chat-room protocol message, compatibility assistant
message, connection acknowledgment). -/
inductive StreamData where
  | chatRoomMessage (message : ChatRoomMessage) (sessionId : Option String)
  | assistant (content : Option String) (model : Option String)
  | systemConnectionAck (timestamp : Nat)
deriving Repr, DecidableEq

/-- `StreamResponse` (shared/types.ts, enum per swagger/config.ts):
`claude_json | error | done | aborted`. -/
inductive StreamResponse where
  | claudeJson (data : StreamData)
  | error (error : Option String)
  | done
  | aborted
deriving Repr, DecidableEq

/-- `ChatRequest` (shared/types.ts): the fields the multi-agent handler
reads.  `availableAgents` is only inspected by debug logging and is
omitted. -/
structure ChatRequest where
  message : String
  sessionId : Option String := none
  requestId : String
  workingDirectory : Option String := none
deriving Repr, DecidableEq

/-! ## Provider registry -/

/-- JS `Map.get` on an association list. -/
def mapGet {α : Type} (m : List (String × α)) (k : String) : Option α :=
  (m.find? (fun e => e.1 == k)).map Prod.snd

/-- JS `Map.set`: replace in place when the key exists, append otherwise. -/
def mapSet {α : Type} (m : List (String × α)) (k : String) (v : α) :
    List (String × α) :=
  if m.any (fun e => e.1 == k) then
    m.map (fun e => if e.1 == k then (k, v) else e)
  else m ++ [(k, v)]

/-- Nested `config` object of `AgentConfiguration` (registry.ts). -/
structure AgentConfigOptions where
  apiKey : Option String := none
  claudePath : Option String := none
  temperature : Option ℚ := none
  maxTokens : Option Nat := none
deriving Repr, DecidableEq

/-- `AgentConfiguration` (registry.ts). -/
structure AgentConfiguration where
  id : String
  name : String
  description : String
  provider : String
  apiEndpoint : Option String := none
  workingDirectory : Option String := none
  isOrchestrator : Option Bool := none
  config : Option AgentConfigOptions := none
deriving Repr, DecidableEq

/-- `AgentProvider` (providers/types.ts).  `executeChat` is embedded as a
function from the request and options to the finite fragment sequence the
generator yields, paired with an exception optionally thrown after the
last yielded fragment. -/
structure AgentProvider where
  id : String
  name : String
  type : String
  executeChat : ProviderChatRequest → ProviderOptions →
    List ProviderResponse × Option String
  supportsImages : Bool

/-- `ProviderRegistry` (registry.ts): the two `Map`s. -/
structure ProviderRegistry where
  providers : List (String × AgentProvider)
  agentConfigs : List (String × AgentConfiguration)

def ProviderRegistry.registerProvider (r : ProviderRegistry)
    (p : AgentProvider) : ProviderRegistry :=
  { r with providers := mapSet r.providers p.id p }

def ProviderRegistry.registerAgent (r : ProviderRegistry)
    (cfg : AgentConfiguration) : ProviderRegistry :=
  { r with agentConfigs := mapSet r.agentConfigs cfg.id cfg }

def ProviderRegistry.getProvider (r : ProviderRegistry)
    (providerId : String) : Option AgentProvider :=
  mapGet r.providers providerId

def ProviderRegistry.getAgent (r : ProviderRegistry)
    (agentId : String) : Option AgentConfiguration :=
  mapGet r.agentConfigs agentId

/-- `getProviderForAgent` (registry.ts): resolve the agent configuration,
then the provider it names; `undefined` at either step propagates. -/
def ProviderRegistry.getProviderForAgent (r : ProviderRegistry)
    (agentId : String) : Option AgentProvider :=
  match r.getAgent agentId with
  | none => none
  | some config => r.getProvider config.provider

/-! ## Screen capture capability -/

/-- Metadata of a screenshot capture result (utils/imageHandling.ts);
`size` is optional, its two numeric fields modelled as a pair. -/
structure CaptureMetadata where
  timestamp : String
  format : String
  size : Option (Nat × Nat) := none
deriving Repr, DecidableEq

/-- Outcome of `globalImageHandler.captureScreenshot`: a successful
capture, a result with `success: false`, or a thrown exception (caught by
`handleScreenCapture` itself). -/
inductive CaptureOutcome where
  | success (imageData : Option String) (metadata : CaptureMetadata)
  | failure (error : Option String) (metadata : CaptureMetadata)
  | thrown (message : String)
deriving Repr, DecidableEq

/-- The `${...size?.width}x${...size?.height}` interpolation. -/
def captureSizeText (m : CaptureMetadata) : String :=
  match m.size with
  | some wh => toString wh.1 ++ "x" ++ toString wh.2
  | none => "undefinedxundefined"

/-- The canned completion text of `handleScreenCapture` (line 270 of
multiAgentChat.ts). -/
def screenCaptureCompletionText (m : CaptureMetadata) : String :=
  "📸 **SCREENSHOT_CAPTURED**\n\nI\x27ve captured a screenshot of the current interface. The image is now available for analysis by other agents in the chat room.\n\nImage details:\n- Format: " ++
    m.format ++ "\n- Timestamp: " ++ m.timestamp ++ "\n- Size: " ++ captureSizeText m

/-- `handleScreenCapture` (multiAgentChat.ts): the capability path taken
for a `capture_screen` structured command. -/
def handleScreenCapture (capture : CaptureOutcome) (agentId : String)
    (request : ChatRequest) (nowIso : String) : List StreamResponse :=
  match capture with
  | .thrown msg => [.error (some msg)]
  | .failure err _ =>
    [.error (some ("Screenshot capture failed: " ++ jsShow err))]
  | .success imageData metadata =>
    [.claudeJson (.chatRoomMessage
        { type := "image",
          content := "Screenshot captured: " ++ metadata.timestamp,
          imageData := imageData,
          agentId := agentId,
          timestamp := nowIso } request.sessionId),
     .claudeJson (.assistant (some (screenCaptureCompletionText metadata)) none),
     .done]

/-! ## The multi-agent chat handler -/

/-- `createChatRoomMessage` (multiAgentChat.ts). -/
def createChatRoomMessage (response : ProviderResponse) (agentId : String)
    (timestamp : String) : Option ChatRoomMessage :=
  if response.type == "text" then
    some { type := "text", content := jsOrStr response.content "",
           agentId := agentId, timestamp := timestamp }
  else if response.type == "image" then
    some { type := "image", content := jsOrStr response.content "Image captured",
           imageData := response.imageData, agentId := agentId,
           timestamp := timestamp }
  else if response.type == "tool_use" then
    if response.toolName == some "capture_screen" then
      some { type := "command",
             content := "Executing screen capture: " ++ jsShow response.toolName,
             agentId := agentId, timestamp := timestamp,
             metadataCommand := response.toolName }
    else none
  else if response.type == "error" then
    some { type := "text", content := "Error: " ++ jsShow response.error,
           agentId := agentId, timestamp := timestamp }
  else none

/-- The chat-room protocol envelope emitted for one fragment, when
`createChatRoomMessage` returns a message. -/
def roomEnvelopes (response : ProviderResponse) (agentId : String)
    (sessionId : Option String) (nowIso : String) : List StreamResponse :=
  match createChatRoomMessage response agentId nowIso with
  | some m => [.claudeJson (.chatRoomMessage m sessionId)]
  | none => []

/-- The `for await (const response of provider.executeChat(...))` loop of
`executeSingleAgent`: per fragment, the chat-room envelope then the
compatibility envelope, with an early `return` on a `done` or `error`
fragment.  Returns the emitted envelopes, and the upstream exception in
case the loop exhausted the generator (an early return discards it,
because the generator is never pulled again). -/
def runProviderLoop (agentId : String) (sessionId : Option String)
    (nowIso : String) :
    List ProviderResponse → Option String → List StreamResponse × Option String
  | [], exn => ([], exn)
  | r :: rs, exn =>
    let room := roomEnvelopes r agentId sessionId nowIso
    if r.type == "text" then
      let rest := runProviderLoop agentId sessionId nowIso rs exn
      (room ++ [.claudeJson (.assistant r.content r.metadataModel)] ++ rest.1,
       rest.2)
    else if r.type == "done" then (room ++ [.done], none)
    else if r.type == "error" then (room ++ [.error r.error], none)
    else
      let rest := runProviderLoop agentId sessionId nowIso rs exn
      (room ++ rest.1, rest.2)

/-- The `ProviderChatRequest` built by `executeSingleAgent` (lines
170-175 of multiAgentChat.ts). -/
def buildProviderRequest (request : ChatRequest)
    (agentConfig : AgentConfiguration) : ProviderChatRequest :=
  { message := request.message,
    sessionId := request.sessionId,
    requestId := request.requestId,
    workingDirectory := jsOrOpt request.workingDirectory agentConfig.workingDirectory }

/-- The options object passed to `provider.executeChat` by
`executeSingleAgent` (lines 178-183). -/
def buildProviderOptions (debugMode : Bool)
    (agentConfig : AgentConfiguration) : ProviderOptions :=
  { debugMode := debugMode,
    temperature := agentConfig.config.bind (fun c => c.temperature),
    maxTokens := agentConfig.config.bind (fun c => c.maxTokens) }

/-- One recorded invocation of a provider adapter `executeChat`, used to
state which adapter was called with which request. -/
structure AdapterCall where
  providerId : String
  request : ProviderChatRequest
  options : ProviderOptions
deriving Repr, DecidableEq

/-- `executeSingleAgent` (multiAgentChat.ts).  Result: the envelopes
yielded, the exception propagating out of the generator (if any), and the
list of adapter `executeChat` invocations performed. -/
def executeSingleAgent (reg : ProviderRegistry) (capture : CaptureOutcome)
    (nowIso : String) (agentId : String) (request : ChatRequest)
    (command : Option AgentCommand) (debugMode : Bool) :
    List StreamResponse × Option String × List AdapterCall :=
  match reg.getProviderForAgent agentId, reg.getAgent agentId with
  | some provider, some agentConfig =>
    if (command.map (fun c => c.command)) == some "capture_screen" then
      (handleScreenCapture capture agentId request nowIso, none, [])
    else
      let providerRequest := buildProviderRequest request agentConfig
      let options := buildProviderOptions debugMode agentConfig
      let res := provider.executeChat providerRequest options
      let loop := runProviderLoop agentId request.sessionId nowIso res.1 res.2
      (loop.1, loop.2, [⟨provider.id, providerRequest, options⟩])
  | _, _ =>
    ([.error (some ("Agent \x27" ++ agentId ++
        "\x27 not found or provider not available"))], none, [])

/-- `executeOrchestration` (multiAgentChat.ts): delegate to the agent
registered under the id `"orchestrator"`. -/
def executeOrchestration (reg : ProviderRegistry) (capture : CaptureOutcome)
    (nowIso : String) (request : ChatRequest) (command : Option AgentCommand)
    (debugMode : Bool) :
    List StreamResponse × Option String × List AdapterCall :=
  match reg.getAgent "orchestrator" with
  | some _ =>
    executeSingleAgent reg capture nowIso "orchestrator" request command debugMode
  | none =>
    ([.error (some "Orchestrator agent not available for multi-agent coordination")],
     none, [])

/-- The `requestAbortControllers` map, embedded by its key set: the code
only ever calls `set`, `delete` and (in tests) `has` on it, and the
`AbortController` values are opaque. -/
abbrev AbortMap := List String

def AbortMap.set (m : AbortMap) (k : String) : AbortMap :=
  if m.contains k then m else m ++ [k]

def AbortMap.delete (m : AbortMap) (k : String) : AbortMap :=
  m.filter (fun x => !(x == k))

/-- `executeMultiAgentChat` (multiAgentChat.ts): register the abort
controller, route on the mention count, convert an escaped exception into
an `error` envelope (the `catch`), and delete the controller (the
`finally`). -/
def executeMultiAgentChat (reg : ProviderRegistry) (capture : CaptureOutcome)
    (nowIso : String) (request : ChatRequest) (m : AbortMap)
    (debugMode : Bool) : List StreamResponse × AbortMap × List AdapterCall :=
  let m1 := AbortMap.set m request.requestId
  let mentionMatches := findMentions request.message
  let command := parseAgentCommand request.message
  let body :=
    if mentionMatches.length == 1 then
      let mentionedAgentId := (mentionMatches.headD "").drop 1
      executeSingleAgent reg capture nowIso mentionedAgentId request command debugMode
    else
      executeOrchestration reg capture nowIso request command debugMode
  let envelopes := body.1 ++
    (match body.2.1 with
     | some e => [StreamResponse.error (some e)]
     | none => [])
  (envelopes, AbortMap.delete m1 request.requestId, body.2.2)

/-- The connection acknowledgment envelope written first by
`handleMultiAgentChatRequest`. -/
def connectionAck (nowMs : Nat) : StreamResponse :=
  .claudeJson (.systemConnectionAck nowMs)

/-- `handleMultiAgentChatRequest` (multiAgentChat.ts): the NDJSON stream
body, as the ordered list of envelopes enqueued, together with the final
abort-controller map and the adapter invocations performed.  The outer
`catch` of the `ReadableStream.start` callback is unreachable in this
embedding because `executeMultiAgentChat` is total (its own `catch`
already converts exceptions into an `error` envelope). -/
def handleMultiAgentChatRequest (reg : ProviderRegistry)
    (capture : CaptureOutcome) (nowIso : String) (nowMs : Nat)
    (chatRequest : ChatRequest) (m : AbortMap) (debugMode : Bool) :
    List StreamResponse × AbortMap × List AdapterCall :=
  let body := executeMultiAgentChat reg capture nowIso chatRequest m debugMode
  (connectionAck nowMs :: body.1, body.2.1, body.2.2)

/-! ## Concrete provider adapters

Each adapter's `executeChat` is embedded as a function of the upstream
events it consumes (HTTP stream chunks, SDK messages).  All three wrap
their body in `try`/`catch`, so the embedded generators never end in an
exception: the second component of the result is always `none`. -/

/-- Common fragment shapes. -/
def doneFragment : ProviderResponse := { type := "done" }

def errorFragment (e : String) : ProviderResponse :=
  { type := "error", error := some e }

def textFragment (t : String) (model : String) : ProviderResponse :=
  { type := "text", content := some t, metadataModel := some model }

/-- One chunk of the OpenAI streaming completion, reduced to the fields
the adapter reads: `choices[0]?.delta?.content`,
`choices[0]?.finish_reason`, `model`. -/
structure OpenAIChunk where
  deltaContent : Option String
  finishReason : Option String
  model : String
deriving Repr, DecidableEq

/-- Upstream behaviour of the OpenAI call: the `create` call may throw,
otherwise it yields chunks and may throw during iteration after the last
delivered chunk. -/
inductive OpenAIUpstream where
  | createThrew (message : String)
  | stream (chunks : List OpenAIChunk) (iterError : Option String)

/-- Text fragments produced for one chunk (`if (delta?.content)`). -/
def openaiChunkTexts (c : OpenAIChunk) : List ProviderResponse :=
  match c.deltaContent with
  | some t => if t == "" then [] else [textFragment t c.model]
  | none => []

/-- The `for await (const chunk of stream)` loop of
`OpenAIProvider.executeChat`; `aborted i` is the state of
`options.abortController?.signal.aborted` as observed at the i-th
iteration.  The boolean result is true when the loop exhausted the
stream without an early return. -/
def openaiLoop (aborted : Nat → Bool) :
    Nat → List OpenAIChunk → List ProviderResponse × Bool
  | _, [] => ([], true)
  | i, c :: rest =>
    if aborted i then ([errorFragment "Request aborted"], false)
    else
      let texts := openaiChunkTexts c
      if jsTruthy c.finishReason then
        (texts ++ [{ type := "done", metadataModel := some c.model }], false)
      else
        let r := openaiLoop aborted (i + 1) rest
        (texts ++ r.1, r.2)

/-- `OpenAIProvider.executeChat` (providers/openai.ts).  The request and
options only shape the upstream call (message construction is not
observable in the fragment stream) and are abstracted into the upstream
parameter. -/
def openaiExecuteChat (aborted : Nat → Bool) (u : OpenAIUpstream) :
    List ProviderResponse × Option String :=
  match u with
  | .createThrew msg => ([errorFragment msg], none)
  | .stream chunks iterError =>
    let r := openaiLoop aborted 0 chunks
    if r.2 then
      match iterError with
      | some e => (r.1 ++ [errorFragment e], none)
      | none => (r.1 ++ [doneFragment], none)
    else (r.1, none)

/-- One block of an SDK assistant message content array. -/
inductive SDKContentPart where
  | str (s : String)
  | textBlock (text : String)
  | otherBlock (serialized : String)
deriving Repr, DecidableEq

/-- `sdkMessage.content` of an assistant SDK message. -/
inductive SDKContent where
  | str (s : String)
  | parts (blocks : List SDKContentPart)
  | otherContent (serialized : String)
deriving Repr, DecidableEq

/-- A message from the Claude Code SDK `query` stream, reduced to the
fields the adapter reads; `system` messages carry their JSON
serialization, which the adapter greps for capture markers. -/
inductive SDKMessage where
  | assistant (content : SDKContent) (model : Option String)
  | toolUse (name : Option String) (input : Option String)
  | system (serialized : String)
  | otherMessage
deriving Repr, DecidableEq

/-- How the Claude Code SDK `query` iteration ends when it does not
complete: an `AbortError`, or any other error. -/
inductive ClaudeExn where
  | abortError
  | other (message : String)
deriving Repr, DecidableEq

def sdkPartToString : SDKContentPart → String
  | .str s => s
  | .textBlock t => t
  | .otherBlock j => j

/-- The assistant-content flattening of `ClaudeCodeProvider.executeChat`
(lines 85-93). -/
def sdkContentToString : SDKContent → String
  | .str s => s
  | .parts blocks => String.join (blocks.map sdkPartToString)
  | .otherContent j => j

/-- `.split('/')[1]` of a mime type, with JS `undefined` interpolation. -/
def mimeExt (mimeType : String) : String :=
  match (jsSplitChar '/' mimeType).get? 1 with
  | some e => e
  | none => "undefined"

/-- The `processedMessage` construction of `ClaudeCodeProvider.executeChat`
(lines 40-61): strip one leading `/`, then append one analysis
instruction per base64 image. -/
def claudeProcessedMessage (request : ProviderChatRequest) : String :=
  let base :=
    if jsStartsWith request.message "/" then request.message.drop 1
    else request.message
  match request.images with
  | some images =>
    if images.length > 0 then
      images.enum.foldl (fun acc p =>
        if p.2.type == "base64" then
          acc ++ "\n\nPlease analyze the screenshot at /tmp/screenshot_" ++
            request.requestId ++ "_" ++ toString p.1 ++ "." ++
            mimeExt p.2.mimeType ++
            ". The image has been captured and is available for analysis."
        else acc) base
    else base
  | none => base

/-- Fragments produced for one SDK message by the loop body of
`ClaudeCodeProvider.executeChat` (lines 84-127). -/
def claudeFragOf : SDKMessage → List ProviderResponse
  | .assistant content model =>
    [{ type := "text", content := some (sdkContentToString content),
       metadataModel := model }]
  | .toolUse name input =>
    [{ type := "tool_use", toolName := name, toolInput := input }]
  | .system serialized =>
    if containsSubstr "screenshot" serialized || containsSubstr "capture" serialized then
      [{ type := "image", content := some "Screenshot captured successfully",
         metadataCaptureType := some "screenshot" }]
    else []
  | .otherMessage => []

/-- `ClaudeCodeProvider.executeChat` (providers/claude-code.ts).
`queryFn` is the SDK `query` call: given the processed prompt it yields a
message list and optionally ends in an exception; the adapter converts
the messages to fragments, appends `done` on completion, and the `catch`
converts an exception into a final `error` fragment. -/
def claudeCodeExecuteChat
    (queryFn : String → List SDKMessage × Option ClaudeExn)
    (request : ProviderChatRequest) : List ProviderResponse × Option String :=
  let q := queryFn (claudeProcessedMessage request)
  (q.1.flatMap claudeFragOf ++
    (match q.2 with
     | none => [doneFragment]
     | some .abortError => [errorFragment "Request aborted"]
     | some (.other e) => [errorFragment e]),
   none)

/-- Parsed shape of one Anthropic SSE `data:` payload, as inspected by
the adapter after `JSON.parse`. -/
inductive AnthropicEvent where
  | contentBlockDelta (text : Option String)
  | messageStop
  | errorEvent (message : Option String)
  | otherEvent
deriving Repr, DecidableEq

/-- Upstream behaviour of the Anthropic `fetch`: the call may throw
(including on abort), return a non-ok status, return no body, or stream
body chunks with an optional read error after the last delivered chunk. -/
inductive AnthropicUpstream where
  | fetchThrew (message : String)
  | notOk (status : Nat) (statusText : String)
  | noBody
  | body (chunks : List String) (readError : Option String)

def anthropicModel : String := "claude-sonnet-4-20250514"

/-- The `for (const line of lines)` body of
`AnthropicProvider.executeChat` (lines 128-174) over a list of complete
lines; `parse` abstracts `JSON.parse` (`none` = the parse threw).  The
boolean result is true when a terminal was emitted and the generator
returned early. -/
def anthropicProcessLines (parse : String → Option AnthropicEvent) :
    List String → List ProviderResponse × Bool
  | [] => ([], false)
  | line :: rest =>
    let t := jsTrim line
    if jsStartsWith t "data: " then
      let d := t.drop 6
      if d == "[DONE]" then ([doneFragment], true)
      else
        match parse d with
        | some (.contentBlockDelta txt) =>
          if jsTruthy txt then
            let r := anthropicProcessLines parse rest
            ({ type := "text", content := some (jsShow txt),
               metadataModel := some anthropicModel } :: r.1, r.2)
          else anthropicProcessLines parse rest
        | some .messageStop =>
          ([{ type := "done", metadataModel := some anthropicModel }], true)
        | some (.errorEvent msg) =>
          ([errorFragment (jsOrStr msg "Unknown Anthropic API error")], true)
        | some .otherEvent => anthropicProcessLines parse rest
        | none => anthropicProcessLines parse rest
    else anthropicProcessLines parse rest

/-- The `while (true)` read loop of `AnthropicProvider.executeChat`
(lines 112-175): the abort check at the top of each iteration, chunk
decoding into a line buffer, and line processing.  The trailing
incomplete buffer after the last chunk is discarded, as in the source. -/
def anthropicReadLoop (parse : String → Option AnthropicEvent)
    (aborted : Nat → Bool) :
    Nat → String → List String → List ProviderResponse × Bool
  | i, _, [] =>
    if aborted i then ([errorFragment "Request aborted"], true) else ([], false)
  | i, buffer, chunk :: rest =>
    if aborted i then ([errorFragment "Request aborted"], true)
    else
      let pieces := jsSplitChar '\n' (buffer ++ chunk)
      let newBuffer := pieces.getLastD ""
      let lines := pieces.dropLast
      let processed := anthropicProcessLines parse lines
      if processed.2 then (processed.1, true)
      else
        let r := anthropicReadLoop parse aborted (i + 1) newBuffer rest
        (processed.1 ++ r.1, r.2)

/-- `AnthropicProvider.executeChat` (providers/anthropic.ts).  The
request body construction (lines 39-97) only shapes the upstream call and
is abstracted into the upstream parameter. -/
def anthropicExecuteChat (parse : String → Option AnthropicEvent)
    (aborted : Nat → Bool) (u : AnthropicUpstream) :
    List ProviderResponse × Option String :=
  match u with
  | .fetchThrew msg => ([errorFragment msg], none)
  | .notOk status statusText =>
    ([errorFragment ("Anthropic API error: " ++ toString status ++ " " ++ statusText)],
     none)
  | .noBody =>
    ([errorFragment "No response body received from Anthropic API"], none)
  | .body chunks readError =>
    let r := anthropicReadLoop parse aborted 0 "" chunks
    if r.2 then (r.1, none)
    else
      match readError with
      | some e => (r.1 ++ [errorFragment e], none)
      | none => (r.1 ++ [doneFragment], none)

/-! ## History path utilities (history/pathUtils.ts) and the
agent-histories request gate (handlers/agentHistories.ts) -/

/-- A `runtime.readDir` entry, reduced to the fields read. -/
structure DirEntry where
  name : String
  isDirectory : Bool
deriving Repr, DecidableEq

/-- Result of `runtime.readDir` on the projects directory. -/
inductive ReadDirResult where
  | ok (entries : List DirEntry)
  | threw
deriving Repr, DecidableEq

/-- The `.replace(/\/$/, "")` step: strip exactly one trailing slash. -/
def stripOneTrailingSlash (s : String) : String :=
  match s.data.getLast? with
  | some c => if c == '/' then String.mk s.data.dropLast else s
  | none => s

/-- The character class `[/\\:.]` that `getEncodedProjectName` replaces
globally by `-`. -/
def encodeProjectChar (c : Char) : Char :=
  if c == '/' || c == '\\' || c == ':' || c == '.' then '-' else c

/-- The `expectedEncoded` computation of `getEncodedProjectName`. -/
def expectedEncodedName (projectPath : String) : String :=
  String.mk ((stripOneTrailingSlash projectPath).data.map encodeProjectChar)

/-- `getEncodedProjectName` (history/pathUtils.ts): resolve a project
path to the name of an existing history directory.  `homeDir` is the
result of `runtime.getHomeDir()` (falsy means failure); `readDir` is the
directory listing of `~/.claude/projects` (`threw` models the `catch`
branch). -/
def getEncodedProjectName (projectPath : String) (homeDir : Option String)
    (readDir : ReadDirResult) : Option String :=
  match homeDir with
  | none => none
  | some h =>
    if h == "" then none
    else
      match readDir with
      | .threw => none
      | .ok dirEntries =>
        let entries := (dirEntries.filter (fun e => e.isDirectory)).map
          (fun e => e.name)
        let expectedEncoded := expectedEncodedName projectPath
        if entries.contains expectedEncoded then some expectedEncoded
        else
          let matchingDirs := entries.filter (fun e =>
            jsStartsWith e (expectedEncoded ++ "-"))
          if 0 < matchingDirs.length then matchingDirs.head? else none

/-- The regex `[<>:"|?*\x00-\x1f\/\\]` of `validateEncodedProjectName`. -/
def isDangerousChar (c : Char) : Bool :=
  c == '<' || c == '>' || c == ':' || c == '"' || c == '|' || c == '?' ||
    c == '*' || c.toNat ≤ 0x1f || c == '/' || c == '\\'

/-- `validateEncodedProjectName` (history/pathUtils.ts). -/
def validateEncodedProjectName (encodedName : String) : Bool :=
  if encodedName == "" then false
  else if encodedName.data.any isDangerousChar then false
  else true

/-- Filesystem resolution of `root/segment` for a single path segment
(the validated name contains no separator): `.` and `..` are resolved by
the operating system, any other segment names a child.  This models the
collaborating filesystem, not repository code. -/
def resolveChildPath (root : List String) (segment : String) : List String :=
  if segment == "." then root
  else if segment == ".." then root.dropLast
  else root ++ [segment]

/-- Outcome of the validation prefix of `handleAgentHistoriesRequest`. -/
inductive HistoriesGate where
  | badRequest
  | readDirectory (path : List String)
deriving Repr, DecidableEq

/-- The request-validation prefix of `handleAgentHistoriesRequest`
(handlers/agentHistories.ts lines 19-40): HTTP 400 on a missing or
invalid encoded project name, otherwise the handler goes on to stat and
read `${homeDir}/.claude/projects/${encodedProjectName}`, given here as
resolved path components under `projectsRoot` (the components of
`${homeDir}/.claude/projects`). -/
def agentHistoriesGate (projectsRoot : List String)
    (encodedProjectName : String) : HistoriesGate :=
  if encodedProjectName == "" then .badRequest
  else if !validateEncodedProjectName encodedProjectName then .badRequest
  else .readDirectory (resolveChildPath projectsRoot encodedProjectName)

/-! ## Terminal fragments and envelopes -/

/-- A provider fragment is terminal when it is `done` or `error`. -/
def isTerminalFragment (r : ProviderResponse) : Bool :=
  r.type == "done" || r.type == "error"

/-- A stream envelope is terminal when it is `done`, `error` or
`aborted`. -/
def isTerminalEnvelope : StreamResponse → Bool
  | .claudeJson _ => false
  | .error _ => true
  | .done => true
  | .aborted => true

/-- `l` contains exactly one element satisfying `p`, and it is the last
element. -/
def terminatesOnce {α : Type} (p : α → Bool) (l : List α) : Bool :=
  l.countP p == 1 &&
    (match l.getLast? with
     | some x => p x
     | none => false)

theorem terminatesOnce_append_last {α : Type} (p : α → Bool) (l : List α)
    (t : α) (hl : ∀ x ∈ l, p x = false) (ht : p t = true) :
    terminatesOnce p (l ++ [t]) = true := by
  unfold terminatesOnce
  have hcount : (l ++ [t]).countP p = 1 := by
    rw [List.countP_append]
    have hz : l.countP p = 0 := by
      rw [List.countP_eq_zero]
      intro a ha
      simp [hl a ha]
    simp [hz, List.countP_cons, ht]
  have hlast : (l ++ [t]).getLast? = some t := by
    rw [List.getLast?_append]
    rfl
  rw [hcount, hlast]
  simp [ht]

theorem exists_front_of_terminatesOnce {α : Type} (p : α → Bool)
    (l : List α) (h : terminatesOnce p l = true) :
    ∃ front t, l = front ++ [t] ∧ (∀ x ∈ front, p x = false) ∧ p t = true := by
  unfold terminatesOnce at h
  rw [Bool.and_eq_true] at h
  obtain ⟨hcount, hlast⟩ := h
  match hl : l.getLast? with
  | none =>
    rw [hl] at hlast
    simp at hlast
  | some t =>
    rw [hl] at hlast
    have hne : l ≠ [] := by
      intro h0
      rw [h0] at hl
      simp at hl
    have hgl : l.getLast hne = t := by
      have := List.getLast?_eq_getLast l hne
      rw [hl] at this
      exact (Option.some_inj.mp this).symm
    have hsplit : l.dropLast ++ [t] = l := by
      rw [← hgl]
      exact List.dropLast_append_getLast hne
    have hpt : p t = true := by simpa using hlast
    refine ⟨l.dropLast, t, hsplit.symm, ?_, hpt⟩
    intro x hx
    have hc1 : l.countP p = 1 := by
      have := hcount
      simp only [Nat.beq_eq_true_eq] at this
      exact this
    rw [← hsplit, List.countP_append] at hc1
    have h1 : List.countP p [t] = 1 := by simp [List.countP_cons, hpt]
    have hz : l.dropLast.countP p = 0 := by omega
    have := List.countP_eq_zero.mp hz x hx
    simpa using this

theorem terminatesOnce_append_left {α : Type} (p : α → Bool) (l1 l2 : List α)
    (h1 : ∀ x ∈ l1, p x = false) (h2 : terminatesOnce p l2 = true) :
    terminatesOnce p (l1 ++ l2) = true := by
  obtain ⟨front, t, rfl, hf, ht⟩ := exists_front_of_terminatesOnce p l2 h2
  rw [← List.append_assoc]
  refine terminatesOnce_append_last p (l1 ++ front) t ?_ ht
  intro x hx
  rcases List.mem_append.mp hx with h | h
  · exact h1 x h
  · exact hf x h

theorem terminatesOnce_cons_of_neg {α : Type} (p : α → Bool) (r : α)
    (rs : List α) (hr : p r = false) :
    terminatesOnce p (r :: rs) = terminatesOnce p rs := by
  unfold terminatesOnce
  rw [List.countP_cons]
  match rs with
  | [] => simp [hr, List.countP_nil]
  | s :: rs2 => simp [hr, List.getLast?_cons_cons]

theorem roomEnvelopes_nonTerminal (r : ProviderResponse) (agentId : String)
    (sessionId : Option String) (nowIso : String) :
    ∀ e ∈ roomEnvelopes r agentId sessionId nowIso,
      isTerminalEnvelope e = false := by
  unfold roomEnvelopes
  cases createChatRoomMessage r agentId nowIso <;> simp [isTerminalEnvelope]

/-- If the provider fragment sequence has exactly one terminal fragment
and it comes last, the loop of `executeSingleAgent` discards the pending
exception and emits exactly one terminal envelope, last. -/
theorem runProviderLoop_clean (agentId : String) (sessionId : Option String)
    (nowIso : String) (frags : List ProviderResponse) (exn : Option String)
    (h : terminatesOnce isTerminalFragment frags = true) :
    (runProviderLoop agentId sessionId nowIso frags exn).2 = none ∧
      terminatesOnce isTerminalEnvelope
        (runProviderLoop agentId sessionId nowIso frags exn).1 = true := by
  induction frags with
  | nil => simp [terminatesOnce] at h
  | cons r rs ih =>
    by_cases hterm : isTerminalFragment r = true
    · unfold isTerminalFragment at hterm
      rw [Bool.or_eq_true] at hterm
      rcases hterm with hdone | herr
      · have ht : r.type = "done" := by simpa using hdone
        constructor
        · simp [runProviderLoop, ht]
        · simp only [runProviderLoop, ht]
          norm_num
          exact terminatesOnce_append_last isTerminalEnvelope _ _
            (roomEnvelopes_nonTerminal r agentId sessionId nowIso) rfl
      · have ht : r.type = "error" := by simpa using herr
        constructor
        · simp [runProviderLoop, ht]
        · simp only [runProviderLoop, ht]
          norm_num
          exact terminatesOnce_append_last isTerminalEnvelope _ _
            (roomEnvelopes_nonTerminal r agentId sessionId nowIso) rfl
    · have hfalse : isTerminalFragment r = false := by
        cases hb : isTerminalFragment r
        · rfl
        · exact absurd hb hterm
      have hdone : (r.type == "done") = false := by
        unfold isTerminalFragment at hfalse
        rcases Bool.or_eq_false_iff.mp hfalse with ⟨h1, _⟩
        exact h1
      have herr : (r.type == "error") = false := by
        unfold isTerminalFragment at hfalse
        rcases Bool.or_eq_false_iff.mp hfalse with ⟨_, h2⟩
        exact h2
      have hrs : terminatesOnce isTerminalFragment rs = true := by
        rw [← terminatesOnce_cons_of_neg isTerminalFragment r rs hfalse]
        exact h
      obtain ⟨ihexn, ihclean⟩ := ih hrs
      by_cases htext : (r.type == "text") = true
      · constructor
        · simp only [runProviderLoop, htext]
          norm_num
          exact ihexn
        · simp only [runProviderLoop, htext]
          norm_num
          refine terminatesOnce_append_left isTerminalEnvelope _ _
            (roomEnvelopes_nonTerminal r agentId sessionId nowIso) ?_
          rw [terminatesOnce_cons_of_neg isTerminalEnvelope
            (.claudeJson (.assistant r.content r.metadataModel)) _ rfl]
          exact ihclean
      · have htext2 : (r.type == "text") = false := by
          cases hb : r.type == "text"
          · rfl
          · exact absurd hb htext
        constructor
        · simp only [runProviderLoop, htext2, hdone, herr]
          norm_num
          exact ihexn
        · simp only [runProviderLoop, htext2, hdone, herr]
          norm_num
          exact terminatesOnce_append_left isTerminalEnvelope _ _
            (roomEnvelopes_nonTerminal r agentId sessionId nowIso) ihclean

theorem handleScreenCapture_clean (capture : CaptureOutcome)
    (agentId : String) (request : ChatRequest) (nowIso : String) :
    terminatesOnce isTerminalEnvelope
      (handleScreenCapture capture agentId request nowIso) = true := by
  cases capture <;>
    simp [handleScreenCapture, terminatesOnce, isTerminalEnvelope,
      List.countP_cons]

/-- Every adapter reachable through the registry emits exactly one
terminal fragment, last (the hypothesis of C1, quantified over the
registry). -/
def registryClean (reg : ProviderRegistry) : Prop :=
  ∀ agentId p, reg.getProviderForAgent agentId = some p →
    ∀ preq opts,
      terminatesOnce isTerminalFragment (p.executeChat preq opts).1 = true

theorem executeSingleAgent_clean (reg : ProviderRegistry)
    (capture : CaptureOutcome) (nowIso : String) (agentId : String)
    (request : ChatRequest) (command : Option AgentCommand)
    (debugMode : Bool) (hreg : registryClean reg) :
    (executeSingleAgent reg capture nowIso agentId request command debugMode).2.1
        = none ∧
      terminatesOnce isTerminalEnvelope
        (executeSingleAgent reg capture nowIso agentId request command
          debugMode).1 = true := by
  unfold executeSingleAgent
  cases hp : reg.getProviderForAgent agentId with
  | none =>
    cases hc : reg.getAgent agentId <;>
      simp [terminatesOnce, isTerminalEnvelope, List.countP_cons]
  | some provider =>
    cases hc : reg.getAgent agentId with
    | none => simp [terminatesOnce, isTerminalEnvelope, List.countP_cons]
    | some agentConfig =>
      by_cases hcmd :
        ((command.map (fun c => c.command)) == some "capture_screen") = true
      · simp only [hcmd, if_true]
        exact ⟨by trivial, handleScreenCapture_clean capture agentId request nowIso⟩
      · have hcmd2 :
            ((command.map (fun c => c.command)) == some "capture_screen")
              = false := by
          cases hb : (command.map (fun c => c.command)) == some "capture_screen"
          · rfl
          · exact absurd hb hcmd
        simp only [hcmd2, if_false, Bool.false_eq_true]
        have hclean := hreg agentId provider hp
          (buildProviderRequest request agentConfig)
          (buildProviderOptions debugMode agentConfig)
        exact runProviderLoop_clean agentId request.sessionId nowIso _ _ hclean

theorem executeOrchestration_clean (reg : ProviderRegistry)
    (capture : CaptureOutcome) (nowIso : String) (request : ChatRequest)
    (command : Option AgentCommand) (debugMode : Bool)
    (hreg : registryClean reg) :
    (executeOrchestration reg capture nowIso request command debugMode).2.1
        = none ∧
      terminatesOnce isTerminalEnvelope
        (executeOrchestration reg capture nowIso request command
          debugMode).1 = true := by
  unfold executeOrchestration
  cases hc : reg.getAgent "orchestrator" with
  | none => simp [terminatesOnce, isTerminalEnvelope, List.countP_cons]
  | some cfg =>
    exact executeSingleAgent_clean reg capture nowIso "orchestrator" request
      command debugMode hreg

theorem executeMultiAgentChat_clean (reg : ProviderRegistry)
    (capture : CaptureOutcome) (nowIso : String) (request : ChatRequest)
    (m : AbortMap) (debugMode : Bool) (hreg : registryClean reg) :
    terminatesOnce isTerminalEnvelope
      (executeMultiAgentChat reg capture nowIso request m debugMode).1
        = true := by
  unfold executeMultiAgentChat
  by_cases hm : ((findMentions request.message).length == 1) = true
  · obtain ⟨hexn, hclean⟩ := executeSingleAgent_clean reg capture nowIso
      (((findMentions request.message).headD "").drop 1) request
      (parseAgentCommand request.message) debugMode hreg
    simp only [hm, if_true, hexn]
    simpa using hclean
  · have hm2 : ((findMentions request.message).length == 1) = false := by
      cases hb : (findMentions request.message).length == 1
      · rfl
      · exact absurd hb hm
    obtain ⟨hexn, hclean⟩ := executeOrchestration_clean reg capture nowIso
      request (parseAgentCommand request.message) debugMode hreg
    simp only [hm2, if_false, Bool.false_eq_true, hexn]
    simpa using hclean

/-! ## Demonstration objects used to instantiate theorems -/

/-- A provider whose generator yields a single `done` fragment. -/
def demoDoneProvider : AgentProvider :=
  { id := "test-provider", name := "Test Provider", type := "openai",
    executeChat := fun _ _ => ([doneFragment], none),
    supportsImages := true }

def demoImplConfig : AgentConfiguration :=
  { id := "impl", name := "Implementation Agent",
    description := "demo agent", provider := "test-provider" }

def demoOrchestratorConfig : AgentConfiguration :=
  { id := "orchestrator", name := "Orchestrator",
    description := "demo orchestrator", provider := "test-provider",
    isOrchestrator := some true }

def demoRegistry : ProviderRegistry :=
  { providers := [("test-provider", demoDoneProvider)],
    agentConfigs := [("impl", demoImplConfig),
      ("orchestrator", demoOrchestratorConfig)] }

def demoCapture : CaptureOutcome :=
  .success (some "base64-image-data")
    { timestamp := "2023-01-01T00:00:00.000Z", format := "png",
      size := some (1920, 1080) }

theorem mapGet_singleton {α : Type} (k : String) (v : α) (x : String) (p : α)
    (h : mapGet [(k, v)] x = some p) : p = v := by
  unfold mapGet at h
  by_cases hk : (k == x) = true
  · simp [List.find?, hk] at h
    exact h.symm
  · have hk2 : (k == x) = false := by
      cases hb : k == x
      · rfl
      · exact absurd hb hk
    simp [List.find?, hk2] at h

theorem demoRegistry_clean : registryClean demoRegistry := by
  intro agentId p hp preq opts
  have hpd : p = demoDoneProvider := by
    unfold ProviderRegistry.getProviderForAgent at hp
    cases hga : ProviderRegistry.getAgent demoRegistry agentId with
    | none => rw [hga] at hp; exact absurd hp (by simp)
    | some cfg =>
      rw [hga] at hp
      exact mapGet_singleton "test-provider" demoDoneProvider cfg.provider p hp
  rw [hpd]
  rfl

/-! ## Claim theorems -/

/-- C1: for every chat request processed by `handleMultiAgentChatRequest`,
assuming every adapter resolvable through the registry emits exactly one
terminal fragment (`done` or `error`) as its last fragment, the NDJSON
stream written for the request contains exactly one terminal envelope
(`done`, `error` or `aborted`), and that envelope is the last envelope of
the stream. -/
theorem chat_stream_has_unique_last_terminal_envelope
    (reg : ProviderRegistry) (capture : CaptureOutcome) (nowIso : String)
    (nowMs : Nat) (request : ChatRequest) (m : AbortMap) (debugMode : Bool)
    (hreg : registryClean reg) :
    terminatesOnce isTerminalEnvelope
      (handleMultiAgentChatRequest reg capture nowIso nowMs request m
        debugMode).1 = true := by
  have h := executeMultiAgentChat_clean reg capture nowIso request m
    debugMode hreg
  show terminatesOnce isTerminalEnvelope
    (connectionAck nowMs ::
      (executeMultiAgentChat reg capture nowIso request m debugMode).1) = true
  rw [terminatesOnce_cons_of_neg isTerminalEnvelope (connectionAck nowMs) _ rfl]
  exact h

/-- Witness for C1: a concrete registry satisfying the hypothesis, and
the conclusion at a concrete request. -/
theorem chat_stream_has_unique_last_terminal_envelope_witness :
    registryClean demoRegistry ∧
      terminatesOnce isTerminalEnvelope
        (handleMultiAgentChatRequest demoRegistry demoCapture
          "2023-01-01T00:00:00.000Z" 17
          { message := "@impl hello", requestId := "r1" } [] false).1 = true :=
  ⟨demoRegistry_clean,
    chat_stream_has_unique_last_terminal_envelope demoRegistry demoCapture
      "2023-01-01T00:00:00.000Z" 17
      { message := "@impl hello", requestId := "r1" } [] false
      demoRegistry_clean⟩

/-- C5: for every chat request and every adapter behaviour, the handler
registers the abort controller under the caller-supplied `requestId` and
the final map is exactly the result of that registration followed by one
deletion (the `finally`), so after the stream ends the map no longer
contains the request id. -/
theorem abort_token_registered_then_removed (reg : ProviderRegistry)
    (capture : CaptureOutcome) (nowIso : String) (nowMs : Nat)
    (request : ChatRequest) (m : AbortMap) (debugMode : Bool) :
    (handleMultiAgentChatRequest reg capture nowIso nowMs request m
        debugMode).2.1 =
      AbortMap.delete (AbortMap.set m request.requestId) request.requestId ∧
      request.requestId ∉
        (handleMultiAgentChatRequest reg capture nowIso nowMs request m
          debugMode).2.1 := by
  constructor
  · rfl
  · intro hmem
    have : request.requestId ∈
        AbortMap.delete (AbortMap.set m request.requestId)
          request.requestId := hmem
    simp [AbortMap.delete, List.mem_filter] at this

/-- C9: the response stream of every `POST /chat` request begins with a
`claude_json` envelope whose payload is the `system`/`connection_ack`
acknowledgment, before any adapter-derived or error envelope, for every
request including those that immediately fail. -/
theorem chat_stream_head_is_connection_ack (reg : ProviderRegistry)
    (capture : CaptureOutcome) (nowIso : String) (nowMs : Nat)
    (request : ChatRequest) (m : AbortMap) (debugMode : Bool) :
    (handleMultiAgentChatRequest reg capture nowIso nowMs request m
        debugMode).1.head? =
      some (StreamResponse.claudeJson (StreamData.systemConnectionAck nowMs)) :=
  rfl

def emptyRegistry : ProviderRegistry := { providers := [], agentConfigs := [] }

/-- C3: a `POST /chat` request whose message mentions exactly the one
agent id `ux`, against a registry with no `ux` agent, produces the
acknowledgment followed by a single `error` envelope whose message
contains "not found", and the stream then closes (the result is exactly
that two-envelope list); the unknown id is converted into a normal error
envelope by a total function, never an exception escaping to the
transport layer. -/
theorem unknown_agent_single_not_found_error (reg : ProviderRegistry)
    (capture : CaptureOutcome) (nowIso : String) (nowMs : Nat)
    (requestId : String) (m : AbortMap) (debugMode : Bool)
    (h : reg.getAgent "ux" = none) :
    handleMultiAgentChatRequest reg capture nowIso nowMs
        { message := "@ux analyze this", requestId := requestId } m debugMode =
      ([connectionAck nowMs,
        .error (some "Agent \x27ux\x27 not found or provider not available")],
       AbortMap.delete (AbortMap.set m requestId) requestId, []) ∧
      containsSubstr "not found"
        "Agent \x27ux\x27 not found or provider not available" = true := by
  constructor
  · have hprov : reg.getProviderForAgent "ux" = none := by
      unfold ProviderRegistry.getProviderForAgent
      rw [h]
    have hmen : findMentions "@ux analyze this" = ["@ux"] := by rfl
    have hcmd : parseAgentCommand "@ux analyze this" = none := by rfl
    unfold handleMultiAgentChatRequest executeMultiAgentChat executeSingleAgent
    simp only [hmen, hcmd]
    rw [show ((["@ux"].headD "").drop 1) = "ux" from rfl]
    rw [hprov, h]
    rfl
  · rfl

/-- Witness for C3: the empty registry has no `ux` agent, and the stream
is exactly the acknowledgment followed by the not-found error. -/
theorem unknown_agent_single_not_found_error_witness :
    emptyRegistry.getAgent "ux" = none ∧
      (handleMultiAgentChatRequest emptyRegistry demoCapture
          "2023-01-01T00:00:00.000Z" 5
          { message := "@ux analyze this", requestId := "r1" } [] false).1 =
        [connectionAck 5,
         .error (some "Agent \x27ux\x27 not found or provider not available")] :=
  ⟨rfl,
    congrArg Prod.fst
      ((unknown_agent_single_not_found_error emptyRegistry demoCapture
        "2023-01-01T00:00:00.000Z" 5 "r1" [] false rfl).1)⟩

/-- Counterexample to C4: the message carries the recognized structured
command `analyze_image` addressed to the single registered agent `impl`,
yet the adapter executeChat is invoked (the call log is that one call,
not empty), so the capability path is not taken for this verb. -/
theorem capability_path_counterexample :
    parseAgentCommand "@impl analyze_image styles" =
        some { command := "analyze_image", target := some "styles" } ∧
      findMentions "@impl analyze_image styles" = ["@impl"] ∧
      (handleMultiAgentChatRequest demoRegistry demoCapture
          "2023-01-01T00:00:00.000Z" 0
          { message := "@impl analyze_image styles", requestId := "r1" } []
          false).2.2 =
        [{ providerId := "test-provider",
           request := { message := "@impl analyze_image styles",
                        requestId := "r1" },
           options := { debugMode := false } }] :=
  ⟨rfl, rfl, rfl⟩

/-- C4 amended: for a message mentioning a single registered agent and
carrying a structured command, the capability path is taken exactly when
the verb is `capture_screen`: then the adapter executeChat is never
invoked and the canned capture completion is synthesized; for the other
verbs the request is sent to the adapter. -/
theorem capability_path_only_for_capture_screen (reg : ProviderRegistry)
    (capture : CaptureOutcome) (nowIso : String) (nowMs : Nat)
    (request : ChatRequest) (m : AbortMap) (debugMode : Bool)
    (mention : String) (p : AgentProvider) (cfg : AgentConfiguration)
    (c : AgentCommand)
    (hm : findMentions request.message = [mention])
    (hp : reg.getProviderForAgent (mention.drop 1) = some p)
    (hc : reg.getAgent (mention.drop 1) = some cfg)
    (hcmd : parseAgentCommand request.message = some c) :
    (handleMultiAgentChatRequest reg capture nowIso nowMs request m
        debugMode).2.2 =
      (if c.command == "capture_screen" then []
       else [{ providerId := p.id,
               request := buildProviderRequest request cfg,
               options := buildProviderOptions debugMode cfg }]) ∧
      (c.command = "capture_screen" →
        (handleMultiAgentChatRequest reg capture nowIso nowMs request m
            debugMode).1 =
          connectionAck nowMs ::
            handleScreenCapture capture (mention.drop 1) request nowIso) := by
  unfold handleMultiAgentChatRequest executeMultiAgentChat executeSingleAgent
  simp only [hm, hcmd]
  rw [show (([mention].headD "").drop 1) = mention.drop 1 from rfl]
  rw [hp, hc]
  have hred : (Option.map (fun x => x.command) (some c) == some "capture_screen")
      = (c.command == "capture_screen") := rfl
  rw [hred]
  by_cases hcs : (c.command == "capture_screen") = true
  · simp only [hcs, if_true]
    constructor
    · rfl
    · intro _
      simp
  · have hcs2 : (c.command == "capture_screen") = false := by
      cases hb : c.command == "capture_screen"
      · rfl
      · exact absurd hb hcs
    simp only [hcs2, if_false, Bool.false_eq_true]
    constructor
    · rfl
    · intro hceq
      exact absurd (by simp [hceq] : (c.command == "capture_screen") = true)
        (by simp [hcs2])

/-- Witness for C4 amended: a `capture_screen` command to a registered
agent takes the capability path (no adapter call; canned completion). -/
theorem capability_path_only_for_capture_screen_witness :
    (handleMultiAgentChatRequest demoRegistry demoCapture
        "2023-01-01T00:00:00.000Z" 3
        { message := "@impl capture_screen", requestId := "r9" } []
        false).2.2 = [] ∧
      (handleMultiAgentChatRequest demoRegistry demoCapture
          "2023-01-01T00:00:00.000Z" 3
          { message := "@impl capture_screen", requestId := "r9" } []
          false).1 =
        connectionAck 3 ::
          handleScreenCapture demoCapture "impl"
            { message := "@impl capture_screen", requestId := "r9" }
            "2023-01-01T00:00:00.000Z" := by
  have h := capability_path_only_for_capture_screen demoRegistry demoCapture
    "2023-01-01T00:00:00.000Z" 3
    { message := "@impl capture_screen", requestId := "r9" } [] false
    "@impl" demoDoneProvider demoImplConfig
    { command := "capture_screen", target := none } rfl rfl rfl rfl
  exact ⟨h.1, h.2 rfl⟩

/-- Counterexample to C7: the message contains exactly one `@agentId`
address token naming a registered agent, yet routing performs no adapter
invocation at all (the call log is empty), because a structured
`capture_screen` command pre-empts the single-agent adapter route. -/
theorem routing_decision_table_counterexample :
    findMentions "@impl capture_screen" = ["@impl"] ∧
      (handleMultiAgentChatRequest demoRegistry demoCapture
          "2023-01-01T00:00:00.000Z" 0
          { message := "@impl capture_screen", requestId := "r2" } []
          false).2.2 = [] :=
  ⟨rfl, rfl⟩

/-- C7 amended: provided the message carries no structured
`capture_screen` command, the decision table holds: with exactly one
address token naming a registered agent, the engine performs exactly one
adapter invocation, against that agent, carrying the raw message; with
zero or several address tokens it delegates to the registered
`orchestrator` agent as exactly one ordinary adapter invocation carrying
the raw message, with no engine-side task decomposition. -/
theorem routing_decision_table (reg : ProviderRegistry)
    (capture : CaptureOutcome) (nowIso : String) (nowMs : Nat)
    (request : ChatRequest) (m : AbortMap) (debugMode : Bool)
    (hcmd : (parseAgentCommand request.message).map (fun c => c.command) ≠
      some "capture_screen") :
    (∀ mention p cfg,
      findMentions request.message = [mention] →
      reg.getProviderForAgent (mention.drop 1) = some p →
      reg.getAgent (mention.drop 1) = some cfg →
      (handleMultiAgentChatRequest reg capture nowIso nowMs request m
          debugMode).2.2 =
        [{ providerId := p.id, request := buildProviderRequest request cfg,
           options := buildProviderOptions debugMode cfg }]) ∧
    ((findMentions request.message).length ≠ 1 →
      ∀ p cfg,
      reg.getProviderForAgent "orchestrator" = some p →
      reg.getAgent "orchestrator" = some cfg →
      (handleMultiAgentChatRequest reg capture nowIso nowMs request m
          debugMode).2.2 =
        [{ providerId := p.id, request := buildProviderRequest request cfg,
           options := buildProviderOptions debugMode cfg }]) ∧
    (∀ cfg, (buildProviderRequest request cfg).message = request.message) := by
  have hcmdb : ((parseAgentCommand request.message).map (fun c => c.command)
      == some "capture_screen") = false :=
    beq_eq_false_iff_ne.mpr hcmd
  refine ⟨?_, ?_, fun _ => rfl⟩
  · intro mention p cfg hm hp hc
    unfold handleMultiAgentChatRequest executeMultiAgentChat executeSingleAgent
    simp only [hm]
    rw [show (([mention].headD "").drop 1) = mention.drop 1 from rfl]
    rw [hp, hc]
    have hred : ((parseAgentCommand request.message).map (fun x => x.command)
        == some "capture_screen") = false := hcmdb
    simp only [hred, Bool.false_eq_true, if_false]
    simp [List.length_singleton]
  · intro hlen p cfg hp hc
    have hlenb : ((findMentions request.message).length == 1) = false :=
      beq_eq_false_iff_ne.mpr hlen
    unfold handleMultiAgentChatRequest executeMultiAgentChat
      executeOrchestration executeSingleAgent
    simp only [hlenb, Bool.false_eq_true, if_false]
    rw [hc, hp]
    simp only [hcmdb, Bool.false_eq_true, if_false]

/-- Witness for C7 amended: a one-mention message produces exactly the
one adapter call to that agent with the raw message, and a two-mention
message produces exactly the one adapter call to the orchestrator with
the raw message. -/
theorem routing_decision_table_witness :
    (handleMultiAgentChatRequest demoRegistry demoCapture
        "2023-01-01T00:00:00.000Z" 0
        { message := "@impl hello", requestId := "r3" } [] false).2.2 =
      [{ providerId := "test-provider",
         request := { message := "@impl hello", requestId := "r3" },
         options := { debugMode := false } }] ∧
      (handleMultiAgentChatRequest demoRegistry demoCapture
          "2023-01-01T00:00:00.000Z" 0
          { message := "@a @b hi", requestId := "r4" } [] false).2.2 =
        [{ providerId := "test-provider",
           request := { message := "@a @b hi", requestId := "r4" },
           options := { debugMode := false } }] := by
  have h1 := (routing_decision_table demoRegistry demoCapture
    "2023-01-01T00:00:00.000Z" 0
    { message := "@impl hello", requestId := "r3" } [] false
    (by decide)).1 "@impl" demoDoneProvider demoImplConfig rfl rfl rfl
  have h2 := ((routing_decision_table demoRegistry demoCapture
    "2023-01-01T00:00:00.000Z" 0
    { message := "@a @b hi", requestId := "r4" } [] false
    (by decide)).2).1 (by decide) demoDoneProvider demoOrchestratorConfig
    rfl rfl
  exact ⟨h1, h2⟩

theorem openaiChunkTexts_nonTerminal (c : OpenAIChunk) :
    ∀ f ∈ openaiChunkTexts c, isTerminalFragment f = false := by
  unfold openaiChunkTexts
  cases hd : c.deltaContent with
  | none => simp
  | some t =>
    by_cases ht : (t == "") = true <;>
      simp [ht, textFragment, isTerminalFragment]

theorem openaiLoop_spec (aborted : Nat → Bool) (chunks : List OpenAIChunk) :
    ∀ i, ((openaiLoop aborted i chunks).2 = true →
        ∀ f ∈ (openaiLoop aborted i chunks).1, isTerminalFragment f = false) ∧
      ((openaiLoop aborted i chunks).2 = false →
        terminatesOnce isTerminalFragment (openaiLoop aborted i chunks).1
          = true) := by
  induction chunks with
  | nil =>
    intro i
    constructor
    · intro _ f hf
      simp [openaiLoop] at hf
    · intro h
      simp [openaiLoop] at h
  | cons c rest ih =>
    intro i
    by_cases hab : aborted i = true
    · constructor
      · intro h2
        simp [openaiLoop, hab] at h2
      · intro _
        simp only [openaiLoop, hab, if_true]
        rfl
    · have hab2 : aborted i = false := by
        cases hb : aborted i
        · rfl
        · exact absurd hb hab
      by_cases hf : jsTruthy c.finishReason = true
      · constructor
        · intro h2
          simp [openaiLoop, hab2, hf] at h2
        · intro _
          simp only [openaiLoop, hab2, hf, Bool.false_eq_true, if_false,
            if_true]
          exact terminatesOnce_append_last isTerminalFragment _ _
            (openaiChunkTexts_nonTerminal c) rfl
      · have hf2 : jsTruthy c.finishReason = false := by
          cases hb : jsTruthy c.finishReason
          · rfl
          · exact absurd hb hf
        obtain ⟨ih1, ih2⟩ := ih (i + 1)
        constructor
        · intro h2 f hfm
          simp only [openaiLoop, hab2, hf2, Bool.false_eq_true, if_false] at h2 hfm
          rcases List.mem_append.mp hfm with hmem | hmem
          · exact openaiChunkTexts_nonTerminal c f hmem
          · exact ih1 h2 f hmem
        · intro h2
          simp only [openaiLoop, hab2, hf2, Bool.false_eq_true, if_false] at h2 ⊢
          exact terminatesOnce_append_left isTerminalFragment _ _
            (openaiChunkTexts_nonTerminal c) (ih2 h2)

theorem openaiExecuteChat_clean (aborted : Nat → Bool) (u : OpenAIUpstream) :
    (openaiExecuteChat aborted u).2 = none ∧
      terminatesOnce isTerminalFragment (openaiExecuteChat aborted u).1
        = true := by
  cases u with
  | createThrew msg => exact ⟨rfl, rfl⟩
  | stream chunks iterError =>
    obtain ⟨h1, h2⟩ := openaiLoop_spec aborted chunks 0
    by_cases hcomp : (openaiLoop aborted 0 chunks).2 = true
    · cases iterError with
      | none =>
        constructor
        · simp [openaiExecuteChat, hcomp]
        · simp only [openaiExecuteChat, hcomp, if_true]
          exact terminatesOnce_append_last isTerminalFragment _ _
            (h1 hcomp) rfl
      | some e =>
        constructor
        · simp [openaiExecuteChat, hcomp]
        · simp only [openaiExecuteChat, hcomp, if_true]
          exact terminatesOnce_append_last isTerminalFragment _ _
            (h1 hcomp) rfl
    · have hcomp2 : (openaiLoop aborted 0 chunks).2 = false := by
        cases hb : (openaiLoop aborted 0 chunks).2
        · rfl
        · exact absurd hb hcomp
      constructor
      · simp [openaiExecuteChat, hcomp2]
      · simp only [openaiExecuteChat, hcomp2, Bool.false_eq_true, if_false]
        exact h2 hcomp2

theorem claudeFragOf_nonTerminal (msg : SDKMessage) :
    ∀ f ∈ claudeFragOf msg, isTerminalFragment f = false := by
  cases msg with
  | assistant content model => simp [claudeFragOf, isTerminalFragment]
  | toolUse name input => simp [claudeFragOf, isTerminalFragment]
  | system s =>
    by_cases h : (containsSubstr "screenshot" s ||
        containsSubstr "capture" s) = true <;>
      simp [claudeFragOf, h, isTerminalFragment]
  | otherMessage => simp [claudeFragOf]

theorem claudeFrags_nonTerminal (msgs : List SDKMessage) :
    ∀ f ∈ msgs.flatMap claudeFragOf, isTerminalFragment f = false := by
  intro f hf
  rw [List.mem_flatMap] at hf
  obtain ⟨msg, _, hm⟩ := hf
  exact claudeFragOf_nonTerminal msg f hm

theorem claudeCodeExecuteChat_clean
    (queryFn : String → List SDKMessage × Option ClaudeExn)
    (request : ProviderChatRequest) :
    (claudeCodeExecuteChat queryFn request).2 = none ∧
      terminatesOnce isTerminalFragment
        (claudeCodeExecuteChat queryFn request).1 = true := by
  refine ⟨rfl, ?_⟩
  unfold claudeCodeExecuteChat
  cases hq : (queryFn (claudeProcessedMessage request)).2 with
  | none =>
    simp only [hq]
    exact terminatesOnce_append_last isTerminalFragment _ _
      (claudeFrags_nonTerminal _) rfl
  | some exn =>
    cases exn with
    | abortError =>
      simp only [hq]
      exact terminatesOnce_append_last isTerminalFragment _ _
        (claudeFrags_nonTerminal _) rfl
    | other e =>
      simp only [hq]
      exact terminatesOnce_append_last isTerminalFragment _ _
        (claudeFrags_nonTerminal _) rfl

theorem anthropicProcessLines_spec (parse : String → Option AnthropicEvent)
    (lines : List String) :
    ((anthropicProcessLines parse lines).2 = true →
        terminatesOnce isTerminalFragment
          (anthropicProcessLines parse lines).1 = true) ∧
      ((anthropicProcessLines parse lines).2 = false →
        ∀ f ∈ (anthropicProcessLines parse lines).1,
          isTerminalFragment f = false) := by
  induction lines with
  | nil =>
    constructor
    · intro h
      simp [anthropicProcessLines] at h
    · intro _ f hf
      simp [anthropicProcessLines] at hf
  | cons line rest ih =>
    obtain ⟨ih1, ih2⟩ := ih
    simp only [anthropicProcessLines]
    split
    · -- data: line
      split
      · -- [DONE]
        exact ⟨fun _ => rfl, fun h => by simp at h⟩
      · -- parse the JSON payload
        split
        · -- contentBlockDelta
          rename_i txt heq
          split
          · -- truthy text: a text fragment then the tail
            constructor
            · intro h2
              have hne : isTerminalFragment
                  { type := "text", content := some (jsShow txt),
                    metadataModel := some anthropicModel } = false := rfl
              rw [terminatesOnce_cons_of_neg isTerminalFragment _ _ hne]
              exact ih1 h2
            · intro h2 f hf
              rcases List.mem_cons.mp hf with hh | hh
              · rw [hh]
                rfl
              · exact ih2 h2 f hh
          · exact ⟨ih1, ih2⟩
        · -- messageStop
          exact ⟨fun _ => rfl, fun h => by simp at h⟩
        · -- errorEvent
          exact ⟨fun _ => rfl, fun h => by simp at h⟩
        · -- other event
          exact ⟨ih1, ih2⟩
        · -- parse failure
          exact ⟨ih1, ih2⟩
    · -- not a data: line
      exact ⟨ih1, ih2⟩

theorem anthropicReadLoop_spec (parse : String → Option AnthropicEvent)
    (aborted : Nat → Bool) (chunks : List String) :
    ∀ i buffer,
      ((anthropicReadLoop parse aborted i buffer chunks).2 = true →
        terminatesOnce isTerminalFragment
          (anthropicReadLoop parse aborted i buffer chunks).1 = true) ∧
      ((anthropicReadLoop parse aborted i buffer chunks).2 = false →
        ∀ f ∈ (anthropicReadLoop parse aborted i buffer chunks).1,
          isTerminalFragment f = false) := by
  induction chunks with
  | nil =>
    intro i buffer
    by_cases hab : aborted i = true
    · constructor
      · intro _
        simp only [anthropicReadLoop, hab, if_true]
        rfl
      · intro h2
        simp [anthropicReadLoop, hab] at h2
    · have hab2 : aborted i = false := by
        cases hb : aborted i
        · rfl
        · exact absurd hb hab
      constructor
      · intro h2
        simp [anthropicReadLoop, hab2] at h2
      · intro _ f hf
        simp [anthropicReadLoop, hab2] at hf
  | cons chunk rest ih =>
    intro i buffer
    by_cases hab : aborted i = true
    · constructor
      · intro _
        simp only [anthropicReadLoop, hab, if_true]
        rfl
      · intro h2
        simp [anthropicReadLoop, hab] at h2
    · have hab2 : aborted i = false := by
        cases hb : aborted i
        · rfl
        · exact absurd hb hab
      obtain ⟨hl1, hl2⟩ := anthropicProcessLines_spec parse
        ((jsSplitChar '\n' (buffer ++ chunk)).dropLast)
      by_cases hstop :
          (anthropicProcessLines parse
            ((jsSplitChar '\n' (buffer ++ chunk)).dropLast)).2 = true
      · constructor
        · intro _
          simp only [anthropicReadLoop, hab2, Bool.false_eq_true, if_false,
            hstop, if_true]
          exact hl1 hstop
        · intro h2
          simp [anthropicReadLoop, hab2, hstop] at h2
      · have hstop2 :
            (anthropicProcessLines parse
              ((jsSplitChar '\n' (buffer ++ chunk)).dropLast)).2 = false := by
          cases hb : (anthropicProcessLines parse
            ((jsSplitChar '\n' (buffer ++ chunk)).dropLast)).2
          · rfl
          · exact absurd hb hstop
        obtain ⟨ih1, ih2⟩ := ih (i + 1) ((jsSplitChar '\n' (buffer ++ chunk)).getLastD "")
        constructor
        · intro h2
          simp only [anthropicReadLoop, hab2, Bool.false_eq_true, if_false,
            hstop2] at h2 ⊢
          exact terminatesOnce_append_left isTerminalFragment _ _
            (hl2 hstop2) (ih1 h2)
        · intro h2 f hf
          simp only [anthropicReadLoop, hab2, Bool.false_eq_true, if_false,
            hstop2] at h2 hf
          rcases List.mem_append.mp hf with hmem | hmem
          · exact hl2 hstop2 f hmem
          · exact ih2 h2 f hmem

theorem anthropicExecuteChat_clean (parse : String → Option AnthropicEvent)
    (aborted : Nat → Bool) (u : AnthropicUpstream) :
    (anthropicExecuteChat parse aborted u).2 = none ∧
      terminatesOnce isTerminalFragment
        (anthropicExecuteChat parse aborted u).1 = true := by
  cases u with
  | fetchThrew msg => exact ⟨rfl, rfl⟩
  | notOk status statusText => exact ⟨rfl, rfl⟩
  | noBody => exact ⟨rfl, rfl⟩
  | body chunks readError =>
    obtain ⟨h1, h2⟩ := anthropicReadLoop_spec parse aborted chunks 0 ""
    by_cases hstop : (anthropicReadLoop parse aborted 0 "" chunks).2 = true
    · constructor
      · simp [anthropicExecuteChat, hstop]
      · simp only [anthropicExecuteChat, hstop, if_true]
        exact h1 hstop
    · have hstop2 : (anthropicReadLoop parse aborted 0 "" chunks).2 = false := by
        cases hb : (anthropicReadLoop parse aborted 0 "" chunks).2
        · rfl
        · exact absurd hb hstop
      cases readError with
      | none =>
        constructor
        · simp [anthropicExecuteChat, hstop2]
        · simp only [anthropicExecuteChat, hstop2, Bool.false_eq_true, if_false]
          exact terminatesOnce_append_last isTerminalFragment _ _
            (h2 hstop2) rfl
      | some e =>
        constructor
        · simp [anthropicExecuteChat, hstop2]
        · simp only [anthropicExecuteChat, hstop2, Bool.false_eq_true, if_false]
          exact terminatesOnce_append_last isTerminalFragment _ _
            (h2 hstop2) rfl

/-- C6: each of the three provider adapters, on every upstream behaviour,
emits a finite fragment sequence terminated by exactly one `done` or
`error` fragment, which is the last fragment; the bound also covers the
cancelled runs, where the terminal is the abort `error` fragment. -/
theorem adapters_emit_exactly_one_terminal :
    (∀ (aborted : Nat → Bool) (u : OpenAIUpstream),
        terminatesOnce isTerminalFragment (openaiExecuteChat aborted u).1
          = true) ∧
      (∀ (queryFn : String → List SDKMessage × Option ClaudeExn)
          (request : ProviderChatRequest),
        terminatesOnce isTerminalFragment
          (claudeCodeExecuteChat queryFn request).1 = true) ∧
      (∀ (parse : String → Option AnthropicEvent) (aborted : Nat → Bool)
          (u : AnthropicUpstream),
        terminatesOnce isTerminalFragment
          (anthropicExecuteChat parse aborted u).1 = true) :=
  ⟨fun aborted u => (openaiExecuteChat_clean aborted u).2,
   fun queryFn request => (claudeCodeExecuteChat_clean queryFn request).2,
   fun parse aborted u => (anthropicExecuteChat_clean parse aborted u).2⟩

/-- An envelope of kind `aborted`. -/
def isAbortedEnvelope : StreamResponse → Bool
  | .aborted => true
  | _ => false

/-- A provider behaving like the OpenAI adapter whose abort signal is
already set when the first chunk arrives. -/
def demoAbortedProvider : AgentProvider :=
  { id := "test-provider", name := "Test Provider", type := "openai",
    executeChat := fun _ _ =>
      openaiExecuteChat (fun _ => true)
        (.stream [{ deltaContent := some "hi", finishReason := none,
                    model := "gpt-4o" }] none),
    supportsImages := true }

def demoAbortedRegistry : ProviderRegistry :=
  { providers := [("test-provider", demoAbortedProvider)],
    agentConfigs := [("impl", demoImplConfig)] }

/-- Counterexample to C2: a request cancelled before completion (the
abort signal set while a chunk is still pending) removes its token and
terminates the stream promptly, but the terminal envelope it emits has
kind `error` with message "Request aborted"; no envelope of kind
`aborted` appears anywhere in the stream. -/
theorem cancellation_aborted_envelope_counterexample :
    (handleMultiAgentChatRequest demoAbortedRegistry demoCapture
        "2023-01-01T00:00:00.000Z" 0
        { message := "@impl hello", requestId := "r5" } [] false).1 =
      [connectionAck 0,
       .claudeJson (.chatRoomMessage
         { type := "text", content := "Error: Request aborted",
           agentId := "impl", timestamp := "2023-01-01T00:00:00.000Z" } none),
       .error (some "Request aborted")] ∧
      (handleMultiAgentChatRequest demoAbortedRegistry demoCapture
          "2023-01-01T00:00:00.000Z" 0
          { message := "@impl hello", requestId := "r5" } [] false).1.countP
        isAbortedEnvelope = 0 :=
  ⟨rfl, rfl⟩

/-- The OpenAI read loop under a signal that fires at step `k` while the
stream still has chunks: the loop emits the fragments of the first `k`
chunks and then, at the very next iteration, the abort `error` fragment. -/
theorem openaiLoop_abort (aborted : Nat → Bool) :
    ∀ (k : Nat) (chunks : List OpenAIChunk) (i : Nat),
      k < chunks.length →
      aborted (i + k) = true →
      (∀ j, j < k → aborted (i + j) = false) →
      (∀ c ∈ chunks.take k, jsTruthy c.finishReason = false) →
      openaiLoop aborted i chunks =
        ((chunks.take k).flatMap openaiChunkTexts ++
          [errorFragment "Request aborted"], false) := by
  intro k
  induction k with
  | zero =>
    intro chunks i hk habort _ _
    match chunks with
    | [] => simp at hk
    | c :: rest =>
      have h0 : aborted i = true := by simpa using habort
      simp [openaiLoop, h0]
  | succ k ih =>
    intro chunks i hk habort hbefore hnofin
    match chunks with
    | [] => simp at hk
    | c :: rest =>
      have h0 : aborted i = false := by
        have := hbefore 0 (Nat.succ_pos k)
        simpa using this
      have hcfin : jsTruthy c.finishReason = false := by
        refine hnofin c ?_
        simp [List.take_cons]
      have hrest := ih rest (i + 1)
        (by simpa using hk)
        (by rw [show i + 1 + k = i + (k + 1) by omega]; exact habort)
        (by
          intro j hj
          have := hbefore (j + 1) (by omega)
          rw [show i + 1 + j = i + (j + 1) by omega]
          exact this)
        (by
          intro x hx
          refine hnofin x ?_
          simp [List.take_cons]
          right
          exact hx)
      simp only [openaiLoop, h0, hcfin, Bool.false_eq_true, if_false, hrest]
      simp [List.take_cons, List.flatMap_cons]

/-- If the fragment list is non-terminal fragments followed by one
`error` fragment, the loop of `executeSingleAgent` ends its envelope list
with the corresponding `error` envelope and discards the exception. -/
theorem runProviderLoop_last_error (agentId : String)
    (sessionId : Option String) (nowIso : String)
    (front : List ProviderResponse) (e : Option String) (exn : Option String)
    (hfront : ∀ f ∈ front, isTerminalFragment f = false) :
    (runProviderLoop agentId sessionId nowIso
        (front ++ [{ type := "error", error := e }]) exn).2 = none ∧
      (runProviderLoop agentId sessionId nowIso
          (front ++ [{ type := "error", error := e }]) exn).1.getLast? =
        some (.error e) := by
  induction front with
  | nil => exact ⟨rfl, rfl⟩
  | cons r rs ih =>
    obtain ⟨ih1, ih2⟩ := ih (fun x hx => hfront x (List.mem_cons_of_mem r hx))
    have hr := hfront r (List.mem_cons_self r rs)
    have hdone : (r.type == "done") = false := by
      unfold isTerminalFragment at hr
      exact (Bool.or_eq_false_iff.mp hr).1
    have herr : (r.type == "error") = false := by
      unfold isTerminalFragment at hr
      exact (Bool.or_eq_false_iff.mp hr).2
    have hne : (runProviderLoop agentId sessionId nowIso
        (rs ++ [{ type := "error", error := e }]) exn).1 ≠ [] := by
      intro h0
      rw [h0] at ih2
      simp at ih2
    by_cases htext : (r.type == "text") = true
    · constructor
      · simp only [List.cons_append, runProviderLoop, htext, if_true]
        exact ih1
      · simp only [List.cons_append, runProviderLoop, htext, if_true,
          List.append_eq]
        rw [List.getLast?_append_of_ne_nil _ hne]
        exact ih2
    · have htext2 : (r.type == "text") = false := by
        cases hb : r.type == "text"
        · rfl
        · exact absurd hb htext
      constructor
      · simp only [List.cons_append, runProviderLoop, htext2, hdone, herr,
          Bool.false_eq_true, if_false, List.append_eq]
        exact ih1
      · simp only [List.cons_append, runProviderLoop, htext2, hdone, herr,
          Bool.false_eq_true, if_false, List.append_eq]
        rw [List.getLast?_append_of_ne_nil _ hne]
        exact ih2

/-- C2 amended: cancellation signalled at chunk step `k` of a not yet
completed OpenAI-adapter request removes the request token from the
registry, and the adapter stops within one fragment-step of the signal:
its fragment list is the fragments of the first `k` chunks followed
immediately by the abort terminal, and the stream ends with an `error`
envelope carrying "Request aborted" — not with an envelope of the
(declared but unused on this path) `aborted` kind. -/
theorem cancellation_error_terminal_within_one_step (reg : ProviderRegistry)
    (capture : CaptureOutcome) (nowIso : String) (nowMs : Nat)
    (request : ChatRequest) (m : AbortMap) (debugMode : Bool)
    (mention : String) (p : AgentProvider) (cfg : AgentConfiguration)
    (aborted : Nat → Bool) (chunks : List OpenAIChunk) (k : Nat)
    (hm : findMentions request.message = [mention])
    (hcmd : parseAgentCommand request.message = none)
    (hp : reg.getProviderForAgent (mention.drop 1) = some p)
    (hc : reg.getAgent (mention.drop 1) = some cfg)
    (hexec : ∀ preq opts, p.executeChat preq opts =
      openaiExecuteChat aborted (.stream chunks none))
    (hk : k < chunks.length)
    (habort : aborted k = true)
    (hbefore : ∀ j, j < k → aborted j = false)
    (hnofin : ∀ c ∈ chunks.take k, jsTruthy c.finishReason = false) :
    (openaiExecuteChat aborted (.stream chunks none)).1 =
        (chunks.take k).flatMap openaiChunkTexts ++
          [errorFragment "Request aborted"] ∧
      (handleMultiAgentChatRequest reg capture nowIso nowMs request m
          debugMode).1.getLast? =
        some (.error (some "Request aborted")) ∧
      request.requestId ∉
        (handleMultiAgentChatRequest reg capture nowIso nowMs request m
          debugMode).2.1 := by
  have hloop := openaiLoop_abort aborted k chunks 0 hk
    (by simpa using habort) (by intro j hj; simpa using hbefore j hj) hnofin
  have hfrags : openaiExecuteChat aborted (.stream chunks none) =
      ((chunks.take k).flatMap openaiChunkTexts ++
        [errorFragment "Request aborted"], none) := by
    simp only [openaiExecuteChat]
    rw [hloop]
    rfl
  have hfront : ∀ f ∈ (chunks.take k).flatMap openaiChunkTexts,
      isTerminalFragment f = false := by
    intro f hf
    rw [List.mem_flatMap] at hf
    obtain ⟨c, _, hm2⟩ := hf
    exact openaiChunkTexts_nonTerminal c f hm2
  obtain ⟨hexn, hlast⟩ := runProviderLoop_last_error (mention.drop 1)
    request.sessionId nowIso ((chunks.take k).flatMap openaiChunkTexts)
    (some "Request aborted") none hfront
  refine ⟨by rw [hfrags], ?_, ?_⟩
  · unfold handleMultiAgentChatRequest executeMultiAgentChat executeSingleAgent
    simp only [hm, List.length_singleton, beq_self_eq_true, if_true]
    rw [show (([mention].headD "").drop 1) = mention.drop 1 from rfl]
    rw [hp, hc]
    simp only [hcmd, Option.map_none']
    simp only [show ((none : Option String) == some "capture_screen") = false
      from rfl, Bool.false_eq_true, if_false]
    rw [hexec, hfrags]
    simp only [errorFragment] at hexn hlast ⊢
    simp only [hexn, List.append_nil]
    have hne2 : (runProviderLoop (mention.drop 1) request.sessionId nowIso
        ((chunks.take k).flatMap openaiChunkTexts ++
          [{ type := "error", error := some "Request aborted" }]) none).1
        ≠ [] := by
      intro h0
      rw [h0] at hlast
      simp at hlast
    rw [show connectionAck nowMs :: (runProviderLoop (mention.drop 1)
        request.sessionId nowIso ((chunks.take k).flatMap openaiChunkTexts ++
          [{ type := "error", error := some "Request aborted" }]) none).1 =
      [connectionAck nowMs] ++ (runProviderLoop (mention.drop 1)
        request.sessionId nowIso ((chunks.take k).flatMap openaiChunkTexts ++
          [{ type := "error", error := some "Request aborted" }]) none).1
      from rfl]
    rw [List.getLast?_append_of_ne_nil _ hne2]
    exact hlast
  · intro hmem
    have h2 : request.requestId ∈
        AbortMap.delete (AbortMap.set m request.requestId)
          request.requestId := hmem
    simp [AbortMap.delete, List.mem_filter] at h2

/-- Abort signal that fires from chunk step 1 on. -/
def demoAbortAt1 : Nat → Bool := fun i => decide (1 ≤ i)

def demoChunks : List OpenAIChunk :=
  [{ deltaContent := some "Hel", finishReason := none, model := "gpt-4o" },
   { deltaContent := some "lo", finishReason := none, model := "gpt-4o" }]

def demoAbortMidProvider : AgentProvider :=
  { id := "openai", name := "OpenAI GPT", type := "openai",
    executeChat := fun _ _ =>
      openaiExecuteChat demoAbortAt1 (.stream demoChunks none),
    supportsImages := true }

def demoUxConfig : AgentConfiguration :=
  { id := "ux", name := "UX Designer", description := "demo",
    provider := "openai" }

def demoAbortMidRegistry : ProviderRegistry :=
  { providers := [("openai", demoAbortMidProvider)],
    agentConfigs := [("ux", demoUxConfig)] }

/-- Witness for C2 amended: the signal fires at step 1 of a two-chunk
stream; the adapter emits the first chunk text then the abort error, the
stream ends with the `error` "Request aborted" envelope, and the token is
gone from the map. -/
theorem cancellation_error_terminal_within_one_step_witness :
    (openaiExecuteChat demoAbortAt1 (.stream demoChunks none)).1 =
        (demoChunks.take 1).flatMap openaiChunkTexts ++
          [errorFragment "Request aborted"] ∧
      (handleMultiAgentChatRequest demoAbortMidRegistry demoCapture
          "2023-01-01T00:00:00.000Z" 0
          { message := "@ux hi", requestId := "r6" } [] false).1.getLast? =
        some (.error (some "Request aborted")) ∧
      "r6" ∉
        (handleMultiAgentChatRequest demoAbortMidRegistry demoCapture
          "2023-01-01T00:00:00.000Z" 0
          { message := "@ux hi", requestId := "r6" } [] false).2.1 :=
  cancellation_error_terminal_within_one_step demoAbortMidRegistry
    demoCapture "2023-01-01T00:00:00.000Z" 0
    { message := "@ux hi", requestId := "r6" } [] false
    "@ux" demoAbortMidProvider demoUxConfig demoAbortAt1 demoChunks 1
    rfl rfl rfl rfl (fun _ _ => rfl) (by decide) (by decide)
    (by
      intro j hj
      have hj0 : j = 0 := by omega
      rw [hj0]
      rfl)
    (by decide)

/-- C8, spec side: the encoding exactly as the claim words it — strip
one trailing `/`, then replace every `/`, `\`, `:` and `.` character by
`-`.  Written from the claim text, to be compared with the source-side
`expectedEncodedName`. -/
def specEncodeProjectPath (projectPath : String) : String :=
  let chars :=
    if projectPath.data.getLast? = some '/' then projectPath.data.dropLast
    else projectPath.data
  String.mk (chars.map fun c =>
    if c = '/' ∨ c = '\\' ∨ c = ':' ∨ c = '.' then '-' else c)

/-- C8, spec side: the resolution rule as the claim words it — the
directory whose name equals the encoding exactly when one exists,
otherwise the first directory whose name is the encoding followed by `-`
plus a suffix, otherwise nothing. -/
def specResolveProjectDir (projectPath : String) (dirNames : List String) :
    Option String :=
  if specEncodeProjectPath projectPath ∈ dirNames then
    some (specEncodeProjectPath projectPath)
  else
    dirNames.find? fun d =>
      (specEncodeProjectPath projectPath ++ "-").data.isPrefixOf d.data

theorem encodeProjectChar_eq_spec (c : Char) :
    encodeProjectChar c =
      if c = '/' ∨ c = '\\' ∨ c = ':' ∨ c = '.' then '-' else c := by
  by_cases h : c = '/' ∨ c = '\\' ∨ c = ':' ∨ c = '.'
  · rcases h with rfl | rfl | rfl | rfl <;> simp [encodeProjectChar]
  · push_neg at h
    obtain ⟨h1, h2, h3, h4⟩ := h
    simp [encodeProjectChar, h1, h2, h3, h4]

theorem head_filter_eq_find {α : Type} (p : α → Bool) (l : List α) :
    (l.filter p).head? = l.find? p := by
  induction l with
  | nil => rfl
  | cons x xs ih =>
    by_cases hx : p x = true
    · simp [List.filter_cons, hx, List.find?_cons_of_pos]
    · have hx2 : p x = false := by
        cases hb : p x
        · rfl
        · exact absurd hb hx
      simp [List.filter_cons, hx2, List.find?_cons_of_neg, ih]

theorem filter_head_if_eq_find {α : Type} (p : α → Bool) (l : List α) :
    (if 0 < (l.filter p).length then (l.filter p).head? else none)
      = l.find? p := by
  rw [← head_filter_eq_find]
  cases hf : l.filter p with
  | nil => simp [hf]
  | cons x xs => simp [hf]

theorem expectedEncodedName_eq_spec (projectPath : String) :
    expectedEncodedName projectPath = specEncodeProjectPath projectPath := by
  have hfun : encodeProjectChar = fun c =>
      if c = '/' ∨ c = '\\' ∨ c = ':' ∨ c = '.' then '-' else c :=
    funext encodeProjectChar_eq_spec
  unfold expectedEncodedName specEncodeProjectPath stripOneTrailingSlash
  rw [hfun]
  cases hl : projectPath.data.getLast? with
  | none => simp [hl]
  | some c =>
    by_cases hc : c = '/'
    · simp [hl, hc]
    · have hcb : (c == '/') = false := by simpa using hc
      simp [hl, hcb, hc]

/-- C8: `getEncodedProjectName` resolves exactly as the claim states:
the project path is encoded by stripping one trailing `/` and replacing
every `/`, `\`, `:`, `.` by `-`; the exact-match directory is returned
when present, otherwise the first directory named encoding-plus-`-suffix`,
otherwise nothing. -/
theorem getEncodedProjectName_matches_spec (projectPath h : String)
    (hne : h ≠ "") (entries : List DirEntry) :
    getEncodedProjectName projectPath (some h) (.ok entries) =
      specResolveProjectDir projectPath
        ((entries.filter fun e => e.isDirectory).map fun e => e.name) ∧
      expectedEncodedName projectPath = specEncodeProjectPath projectPath := by
  refine ⟨?_, expectedEncodedName_eq_spec projectPath⟩
  have hbeq : (h == "") = false := beq_eq_false_iff_ne.mpr hne
  unfold getEncodedProjectName specResolveProjectDir
  rw [← expectedEncodedName_eq_spec projectPath]
  simp only [hbeq, Bool.false_eq_true, if_false]
  by_cases hmem : expectedEncodedName projectPath ∈
      ((entries.filter fun e => e.isDirectory).map fun e => e.name)
  · have hcont : ((entries.filter fun e => e.isDirectory).map
        (fun e => e.name)).contains (expectedEncodedName projectPath)
        = true := List.elem_iff.mpr hmem
    simp [hcont, hmem]
  · have hcont : ((entries.filter fun e => e.isDirectory).map
        (fun e => e.name)).contains (expectedEncodedName projectPath)
        = false := by
      cases hb : ((entries.filter fun e => e.isDirectory).map
        (fun e => e.name)).contains (expectedEncodedName projectPath)
      · rfl
      · exact absurd (List.elem_iff.mp hb) hmem
    simp only [hcont, Bool.false_eq_true, if_false, hmem]
    rw [filter_head_if_eq_find]
    rfl

/-- Witness for C8: a concrete project path and directory listing. -/
theorem getEncodedProjectName_matches_spec_witness :
    getEncodedProjectName "/Users/sugyan/tmp/" (some "/home/u")
        (.ok [{ name := "-Users-sugyan-tmp", isDirectory := true },
              { name := "other", isDirectory := false }]) =
      specResolveProjectDir "/Users/sugyan/tmp/"
        (([{ name := "-Users-sugyan-tmp", isDirectory := true },
           ({ name := "other", isDirectory := false } : DirEntry)].filter
            fun e => e.isDirectory).map fun e => e.name) ∧
      expectedEncodedName "/Users/sugyan/tmp/" =
        specEncodeProjectPath "/Users/sugyan/tmp/" :=
  getEncodedProjectName_matches_spec "/Users/sugyan/tmp/" "/home/u"
    (by decide)
    [{ name := "-Users-sugyan-tmp", isDirectory := true },
     { name := "other", isDirectory := false }]

/-- C10: the agent-histories gate does reject every name that is empty
or contains a listed dangerous character, but the name `..` contains
none of them: it passes `validateEncodedProjectName`, and the directory
the handler then reads resolves to the parent of the projects root, so
the read escapes the projects root.  The claimed safety property fails
at this input, against the evident intent of the validation. -/
theorem dotdot_passes_validation_and_escapes :
    validateEncodedProjectName ".." = true ∧
      agentHistoriesGate ["home", ".claude", "projects"] ".." =
        .readDirectory ["home", ".claude"] ∧
      ¬ (["home", ".claude", "projects"] <+:
          (["home", ".claude"] : List String)) := by
  refine ⟨by decide, by decide, by decide⟩

end AgentRooms
